import Mathlib

/-!
A shallow embedding of `scripts/enrich-articles.py` (tech-news-digest).

The Python script selects high-scoring articles, fetches full text per URL
(markdown endpoint preferred, HTML extraction as fallback) and writes the
results back onto the article records.  Pure functions of the script are
translated directly; the network is made explicit as a `NetResult` input
(the transport outcome plus the already-decoded response body, folding the
gzip-sniff / utf-8-replace step of the script into the response model), and
the in-place mutation of article dictionaries becomes explicit state
passing over a list of `Article` records.
-/

namespace Enrich

/-- Python string slice `s[:n]`: for `0 ≤ n` the first `n` characters, for
negative `n` all but the last `-n` characters. -/
def pyStrTake (n : Int) (s : String) : String :=
  if 0 ≤ n then ⟨s.data.take n.toNat⟩ else ⟨s.data.take (s.data.length - (-n).toNat)⟩

/-- Python list slice `l[:n]`, same clamping rules as `pyStrTake`. -/
def pyTake (n : Int) (l : List α) : List α :=
  if 0 ≤ n then l.take n.toNat else l.take (l.length - (-n).toNat)

/-- Python `str.isdigit` restricted to ASCII digit strings (the token-count
header values the script meets): non-empty and all characters digits. -/
def pyIsdigit (s : String) : Bool :=
  !s.data.isEmpty && s.data.all Char.isDigit

/-- Python `int(s)` for a string that passed `pyIsdigit`. -/
def pyToNat (s : String) : Nat :=
  s.data.foldl (fun n c => n * 10 + (c.toNat - 48)) 0

/-- Whether `pat` occurs as a contiguous run inside `cs`. -/
def listHasRun (pat : List Char) : List Char → Bool
  | [] => pat.isEmpty
  | c :: rest => pat.isPrefixOf (c :: rest) || listHasRun pat rest

/-- Python `needle in haystack` on strings (substring containment). -/
def pyInStr (needle haystack : String) : Bool :=
  listHasRun needle.data haystack.data

/-- Character-wise ASCII lowercasing (Python `str.lower` on the ASCII
hosts and tags this script handles). -/
def lowerChars (cs : List Char) : List Char :=
  cs.map Char.toLower

/- ### Domain Classifier (`get_domain` and the two static host sets) -/

/-- A character allowed after the first one in a URL scheme
(`urllib.parse.scheme_chars`). -/
def schemeChar (c : Char) : Bool :=
  c.isAlphanum || c == '+' || c == '-' || c == '.'

/-- A non-empty character run that `urllib.parse.urlsplit` accepts as a
scheme: a letter followed by letters, digits, `+`, `-`, `.`. -/
def isSchemeLike : List Char → Bool
  | [] => false
  | c :: rest => c.isAlpha && rest.all schemeChar

/-- Remove a leading `scheme:` from a URL if the text before the first `:`
is a valid scheme, as `urlsplit` does. -/
def dropSchemePart (cs : List Char) : List Char :=
  let before := cs.takeWhile (fun c => c != ':')
  if before.length < cs.length && isSchemeLike before then
    cs.drop (before.length + 1)
  else cs

/-- `urlparse(url).netloc`: after the optional scheme, an authority led by
`//` and running up to the first `/`, `?` or `#`; empty when the URL has no
`//`-led authority. -/
def netlocOf (url : String) : String :=
  match dropSchemePart url.data with
  | '/' :: '/' :: rest => ⟨rest.takeWhile (fun c => c != '/' && c != '?' && c != '#')⟩
  | _ => ""

/-- Python `s.lstrip("www.")`: removes *leading characters drawn from the
set `{w, .}`* — a character-set strip, not the removal of one `"www."`
prefix. -/
def lstripWwwDot (s : String) : String :=
  ⟨s.data.dropWhile (fun c => c == 'w' || c == '.')⟩

/-- `get_domain` from the script:
`urlparse(url).netloc.lower().lstrip("www.")`, with the `except` branch
returning `""` (the model is total, so no exception path arises). -/
def get_domain (url : String) : String :=
  lstripWwwDot ⟨lowerChars (netlocOf url).data⟩

/-- The spec's wording of the Domain Classifier, for comparison with
`get_domain`: the lowercased host with exactly one leading `"www."`
removed when present, otherwise unchanged. -/
def get_domain_specced (url : String) : String :=
  let host := lowerChars (netlocOf url).data
  if ("www.".data).isPrefixOf host then ⟨host.drop 4⟩ else ⟨host⟩

/-- `SKIP_DOMAINS` from the script. -/
def SKIP_DOMAINS : List String :=
  ["twitter.com", "x.com",
   "reddit.com", "old.reddit.com",
   "github.com",
   "youtube.com", "youtu.be",
   "nytimes.com", "bloomberg.com", "wsj.com", "ft.com",
   "arxiv.org"]

/-- `blog_domains` from `enrich_articles`. -/
def blog_domains : List String :=
  ["simonwillison.net", "overreacted.io", "eli.thegreenplace.net",
   "matklad.github.io", "lucumr.pocoo.org", "devblogs.microsoft.com",
   "rachelbythebay.com", "xeiaso.net", "pluralistic.net", "lcamtuf.substack.com",
   "hillelwayne.com", "dynomight.net", "geoffreylitt.com", "fabiensanglard.net",
   "blog.cloudflare.com", "antirez.com", "paulgraham.com", "danluu.com",
   "latent.space", "www.latent.space"]

/- ### Text Extractor (`TextExtractor` + `extract_readable_text`)

`html.parser.HTMLParser` is modelled as a tokenizer producing start-tag,
end-tag, self-closing-tag and text events; entity unescaping, CDATA modes
and the trailing-ampersand buffering of the stdlib parser are out of scope
(none of the properties below depend on them).  A self-closing tag fires
the start handler and then the end handler, as the stdlib default
`handle_startendtag` does. -/

inductive HTMLEvent where
  | startTag (name : String)
  | endTag (name : String)
  | startEndTag (name : String)
  | dataRun (text : List Char)
deriving Repr, DecidableEq

/-- A character the stdlib parser accepts inside a tag name after the
leading letter (everything but whitespace, `/` and `>`). -/
def tagNameChar (c : Char) : Bool :=
  !(c == ' ' || c == '\t' || c == '\n' || c == '\r' || c == '\x0c' || c == '/' || c == '>')

/-- Whitespace inside markup, as Python's `\s`. -/
def isMarkupSpace (c : Char) : Bool :=
  c == ' ' || c == '\t' || c == '\n' || c == '\r' || c == '\x0b' || c == '\x0c'

/-- Drop everything up to and including the first `-->` (close of an HTML
comment); if none occurs the rest of the input is consumed unprocessed, as
the stdlib parser buffers an unterminated comment. -/
def dropPastCommentClose : List Char → List Char
  | [] => []
  | c :: rest =>
    if ['-', '-', '>'].isPrefixOf (c :: rest) then rest.drop 2
    else dropPastCommentClose rest

/-- One tokenizer pass, fuelled: every step consumes at least one input
character, so `cs.length + 1` fuel always suffices (`tokenize` below). -/
def tokenizeGo : Nat → List Char → List HTMLEvent
  | 0, _ => []
  | _ + 1, [] => []
  | fuel + 1, '<' :: rest =>
    match rest with
    | '!' :: '-' :: '-' :: rest2 => tokenizeGo fuel (dropPastCommentClose rest2)
    | '!' :: rest2 => tokenizeGo fuel ((rest2.dropWhile (fun c => c != '>')).drop 1)
    | '?' :: rest2 => tokenizeGo fuel ((rest2.dropWhile (fun c => c != '>')).drop 1)
    | '/' :: rest2 =>
      let inner := rest2.takeWhile (fun c => c != '>')
      if inner.length == rest2.length then []
      else
        let name := (inner.dropWhile isMarkupSpace).takeWhile tagNameChar
        let evs := tokenizeGo fuel (rest2.drop (inner.length + 1))
        if name.isEmpty then evs else .endTag ⟨lowerChars name⟩ :: evs
    | c :: rest2 =>
      if c.isAlpha then
        let inner := rest.takeWhile (fun d => d != '>')
        if inner.length == rest.length then []
        else
          let name : String := ⟨lowerChars (inner.takeWhile tagNameChar)⟩
          let evs := tokenizeGo fuel (rest.drop (inner.length + 1))
          if inner.getLast? == some '/' then .startEndTag name :: evs
          else .startTag name :: evs
      else
        .dataRun ['<'] :: tokenizeGo fuel rest2
    | [] => .dataRun ['<'] :: []
  | fuel + 1, c :: rest =>
    let run := (c :: rest).takeWhile (fun d => d != '<')
    .dataRun run :: tokenizeGo fuel ((c :: rest).drop run.length)

/-- Tokenize a markup fragment. -/
def tokenize (cs : List Char) : List HTMLEvent :=
  tokenizeGo (cs.length + 1) cs

/-- `TextExtractor._skip_tags`. -/
def skipTagSet : List String :=
  ["script", "style", "nav", "footer", "header", "aside", "noscript"]

/-- The tags whose closing appends a newline in `handle_endtag`. -/
def newlineTagSet : List String :=
  ["p", "br", "div", "h1", "h2", "h3", "h4", "li"]

/-- The mutable state of a `TextExtractor` instance: the accumulated text
(`self._text`, joined) and the suppression flag (`self._skip`). -/
structure TEState where
  buf : List Char
  suppress : Bool
deriving Repr, DecidableEq

/-- `handle_starttag` / `handle_endtag` / `handle_data`; a self-closing tag
runs the start handler then the end handler (stdlib `handle_startendtag`). -/
def feedEvent (st : TEState) (e : HTMLEvent) : TEState :=
  match e with
  | .startTag t => if t ∈ skipTagSet then { st with suppress := true } else st
  | .endTag t =>
    let st1 := if t ∈ skipTagSet then { st with suppress := false } else st
    if t ∈ newlineTagSet then { st1 with buf := st1.buf ++ ['\n'] } else st1
  | .startEndTag t =>
    let st1 := if t ∈ skipTagSet then { st with suppress := true } else st
    let st2 := if t ∈ skipTagSet then { st1 with suppress := false } else st1
    if t ∈ newlineTagSet then { st2 with buf := st2.buf ++ ['\n'] } else st2
  | .dataRun d => if st.suppress then st else { st with buf := st.buf ++ d }

/-- `re.sub(r"[ \t]+", " ", ·)`: each maximal run of spaces/tabs becomes a
single space.  The flag records whether the previous character was in a
run. -/
def collapseSpacesAux : Bool → List Char → List Char
  | _, [] => []
  | inRun, c :: rest =>
    if c == ' ' || c == '\t' then
      if inRun then collapseSpacesAux true rest
      else ' ' :: collapseSpacesAux true rest
    else c :: collapseSpacesAux false rest

/-- `re.sub(r"\n{3,}", "\n\n", ·)`: runs of three or more newlines become
exactly two; the counter tracks the newlines already emitted in the current
run. -/
def collapseNewlinesAux : Nat → List Char → List Char
  | _, [] => []
  | seen, c :: rest =>
    if c == '\n' then
      if seen < 2 then '\n' :: collapseNewlinesAux (seen + 1) rest
      else collapseNewlinesAux seen rest
    else c :: collapseNewlinesAux 0 rest

/-- Python `str.strip()` (ASCII whitespace). -/
def pyStrip (cs : List Char) : List Char :=
  ((cs.dropWhile isMarkupSpace).reverse.dropWhile isMarkupSpace).reverse

/-- `TextExtractor.get_text`: join the buffer, collapse space runs, then
newline runs, then strip. -/
def getText (st : TEState) : String :=
  ⟨pyStrip (collapseNewlinesAux 0 (collapseSpacesAux false st.buf))⟩

/-- Split `cs` at the first case-insensitive occurrence of `pat` (given
lowercased): the part before the match and the part after it. -/
def splitFirstCI (pat : List Char) : List Char → Option (List Char × List Char)
  | [] => if pat.isEmpty then some ([], []) else none
  | c :: rest =>
    if lowerChars ((c :: rest).take pat.length) == pat then
      some ([], (c :: rest).drop pat.length)
    else
      (splitFirstCI pat rest).map (fun p => (c :: p.1, p.2))

/-- One attempt of `re.search(r"<article[^>]*>(.*?)</article>", html,
DOTALL | IGNORECASE)` anchored at the start of `cs`: `<article`
(case-insensitive), a run of non-`>` characters, `>`, then the lazily
captured content up to the first `</article>`. -/
def tryArticleAt (cs : List Char) : Option (List Char) :=
  if lowerChars (cs.take 8) == "<article".data then
    let after := cs.drop 8
    let attrs := after.takeWhile (fun c => c != '>')
    if attrs.length == after.length then none
    else (splitFirstCI "</article>".data (after.drop (attrs.length + 1))).map Prod.fst
  else none

/-- The leftmost match of the `<article>` region regex. -/
def findArticleFragment : List Char → Option (List Char)
  | [] => none
  | c :: rest =>
    match tryArticleAt (c :: rest) with
    | some frag => some frag
    | none => findArticleFragment rest

/-- `extract_readable_text`: restrict to the first `<article>` region when
present, feed the fragment through the extractor, and post-process.  The
`except` branch around `feed` has no counterpart because the model is
total. -/
def extract_readable_text (html : String) : String :=
  let frag := (findArticleFragment html.data).getD html.data
  getText ((tokenize frag).foldl feedEvent ⟨[], false⟩)

/- ### Content Fetcher (`fetch_full_text`) -/

/-- The result of one simulated network request: either an exception
raised by `urlopen`/body handling, or a response.  For a response the
model carries the `Content-Type` and `x-markdown-tokens` header values and
the body *after* the script's gzip sniff and utf-8 decode-with-replace
(which never fails); `bodyFailed` covers a read or gzip error raised while
producing the body, whose `str(e)` is the carried message. -/
inductive NetResult where
  | httpError (code : Nat)
  | urlError (reason : String)
  | otherError (msg : String)
  | response (contentType : String) (tokenHeader : String) (body : String)
  | bodyFailed (contentType : String) (tokenHeader : String) (msg : String)
deriving Repr, DecidableEq

/-- The dictionary `fetch_full_text` returns. -/
structure FetchOutcome where
  text : String
  method : String
  tokens : Nat
  error : Option String
deriving Repr, DecidableEq

/-- `fetch_full_text(url, max_chars)`, with the network explicit: `net` is
what the single `urlopen` GET for `url` produces.  Branches in source
order: deny-listed domain, the markdown path, the HTML-extraction path,
and one `except` arm per failure class. -/
def fetch_full_text (url : String) (max_chars : Int) (net : NetResult) : FetchOutcome :=
  let domain := get_domain url
  if domain ∈ SKIP_DOMAINS then
    ⟨"", "skipped", 0, some ("domain " ++ domain ++ " in skip list")⟩
  else
    match net with
    | .httpError code => ⟨"", "error", 0, some ("HTTP " ++ toString code)⟩
    | .urlError reason => ⟨"", "error", 0, some ("URL error: " ++ reason)⟩
    | .otherError msg => ⟨"", "error", 0, some (pyStrTake 100 msg)⟩
    | .bodyFailed _ _ msg => ⟨"", "error", 0, some (pyStrTake 100 msg)⟩
    | .response contentType tokenHeader body =>
      if pyInStr "text/markdown" contentType then
        let tokens := if pyIsdigit tokenHeader then pyToNat tokenHeader else body.length / 4
        ⟨pyStrTake max_chars body, "cf-markdown", tokens, none⟩
      else
        let extracted := extract_readable_text body
        if extracted.length < 100 then
          ⟨"", "html-too-short", 0, some "extracted text too short"⟩
        else
          ⟨pyStrTake max_chars extracted, "html-extract",
            (pyStrTake max_chars extracted).length / 4, none⟩

/- ### Batch Selector and Enrichment Orchestrator (`enrich_articles`) -/

/-- One article record.  The keys the script reads or writes are explicit
fields (absent key = `none`); every other key of the underlying dictionary
is bundled untouched in `rest`.  Values the script meets are strings and
integers, so `rest` pairs keys with strings. -/
structure Article where
  link : Option String
  quality_score : Option Int
  full_text : Option String
  full_text_method : Option String
  full_text_tokens : Option Nat
  rest : List (String × String)
deriving Repr, DecidableEq

/-- Python truthiness of `a.get(k)` for an optional string field: the key
is present with a non-empty value. -/
def truthy : Option String → Bool
  | some s => !s.data.isEmpty
  | none => false

/-- `a.get("link", "")`. -/
def linkOf (a : Article) : String := a.link.getD ""

/-- `a.get("quality_score", 0)`. -/
def scoreOf (a : Article) : Int := a.quality_score.getD 0

/-- The eligibility test of the selector loop: no truthy `full_text`, a
truthy `link`, and score at or above `min_score`, or a blog-domain article
with score at least 3. -/
def isEligible (min_score : Int) (a : Article) : Bool :=
  !truthy a.full_text && truthy a.link &&
    (min_score ≤ scoreOf a || (get_domain (linkOf a) ∈ blog_domains && 3 ≤ scoreOf a))

/-- The `eligible` list: candidates in original order that pass the test. -/
def eligibleList (articles : List Article) (min_score : Int) : List Article :=
  articles.filter (isEligible min_score)

/-- The `seen_urls` / `unique` loop: keep the first article for each link. -/
def dedupByLink : List Article → List String → List Article
  | [], _ => []
  | a :: rest, seen =>
    if linkOf a ∈ seen then dedupByLink rest seen
    else a :: dedupByLink rest (linkOf a :: seen)

/-- The comparison under `unique.sort(key=lambda x: -x.get("quality_score", 0))`:
ascending in the negated score, i.e. descending in the score. -/
def scoreLE (a b : Article) : Prop := scoreOf b ≤ scoreOf a

instance : DecidableRel scoreLE := fun _ _ => Int.decLe _ _

instance : IsTotal Article scoreLE := ⟨fun a b => Int.le_total (scoreOf b) (scoreOf a)⟩

instance : IsTrans Article scoreLE := ⟨fun _ _ _ hab hbc => le_trans hbc hab⟩

/-- `to_fetch`: filter, dedup, stable sort by descending score, truncate.
Python's `list.sort` is a stable sort under the (total, transitive) key
comparison, and a stable sort's output is determined by the comparison, so
the library's stable `insertionSort` is its model. -/
def buildWorkList (articles : List Article) (min_score max_articles : Int) : List Article :=
  pyTake max_articles
    (List.insertionSort scoreLE (dedupByLink (eligibleList articles min_score) []))

/-- The `results` dictionary: one outcome per dispatched work-list entry,
keyed by link.  Dispatch runs under a thread pool whose completion order
only affects logging and the interleaving of counter increments, not the
final map or totals, so the model collects outcomes in list order. -/
def fetchResults (worklist : List Article) (max_chars : Int)
    (net : String → NetResult) : List (String × FetchOutcome) :=
  worklist.map (fun a => (linkOf a, fetch_full_text (linkOf a) max_chars (net (linkOf a))))

/-- The application loop over the *original* collection: an article whose
link has an outcome with truthy text receives `full_text`,
`full_text_method` and `full_text_tokens`; every other article is left
as-is. -/
def applyOutcomes (results : List (String × FetchOutcome)) (a : Article) : Article :=
  match results.lookup (linkOf a) with
  | some r =>
    if truthy (some r.text) then
      { a with full_text := some r.text, full_text_method := some r.method,
               full_text_tokens := some r.tokens }
    else a
  | none => a

/-- `enrich_articles`: returns the collection after the mutation loop and
the `(attempted, success, cf_count)` counters.  An empty work list returns
`(0, 0, 0)` before any fetch is dispatched. -/
def enrich_articles (articles : List Article) (min_score max_articles max_chars : Int)
    (net : String → NetResult) : List Article × Nat × Nat × Nat :=
  let to_fetch := buildWorkList articles min_score max_articles
  if to_fetch.isEmpty then (articles, 0, 0, 0)
  else
    let results := fetchResults to_fetch max_chars net
    let attempted := results.length
    let success := (results.filter (fun p => truthy (some p.2.text))).length
    let cf_count := (results.filter (fun p =>
      truthy (some p.2.text) && p.2.method == "cf-markdown")).length
    (articles.map (applyOutcomes results), attempted, success, cf_count)

/- ### Fixtures and auxiliary predicates used by the statements below -/

/-- The method values the spec groups as the empty-text outcomes. -/
def emptyTextMethods : List String := ["skipped", "html-too-short", "error"]

/-- Hypothesis for the amended C1: the decoded body is non-empty whenever
the response declares the markdown content type. -/
def markdownBodyNonempty : NetResult → Prop
  | .response contentType _ body => pyInStr "text/markdown" contentType = true → body ≠ ""
  | _ => True

/-- The `NetResult`s that model a raised exception (transport or internal
failure) rather than a usable response. -/
def isFailure : NetResult → Prop
  | .response _ _ _ => False
  | _ => True

/-- A 100-character exception reason, used to exhibit an untruncated
`URL error:` description. -/
def longReason : String := ⟨List.replicate 100 'x'⟩

/-- Fixture: eligible article, score 12. -/
def exArtA : Article := ⟨some "http://example.com/a", some 12, none, none, none, []⟩

/-- Fixture: eligible article with the same link as `exArtA`, score 11. -/
def exArtA2 : Article := ⟨some "http://example.com/a", some 11, none, none, none, []⟩

/-- Fixture: eligible article with a distinct link, score 11. -/
def exArtB : Article := ⟨some "http://example.com/b", some 11, none, none, none, []⟩

/-- Fixture: article whose `full_text` key is present but empty. -/
def exArtEmptyFT : Article := ⟨some "http://example.com/a", some 12, some "", none, none, []⟩

/-- Fixture: article below both score thresholds. -/
def exArtLow : Article := ⟨some "http://example.com/low", some 1, none, none, none, []⟩

/-- Fixture network: every URL answers with a small markdown body. -/
def mdNet : String → NetResult := fun _ => .response "text/markdown" "" "hello"

/- ### Sanity checks (spec §8 examples) -/

example : get_domain "http://www.example.com/x" = "example.com" := by decide
example : get_domain "https://reddit.com/r/a" = "reddit.com" := by decide
example : get_domain "http://web.example.com/a" = "eb.example.com" := by decide
example : get_domain_specced "http://web.example.com/a" = "web.example.com" := by decide
example :
    extract_readable_text "<article><p>Hello</p><script>ignored</script><p>World</p></article>" =
      "Hello\nWorld" := by decide
example :
    fetch_full_text "https://reddit.com/r/x" 2000 (.urlError "unused") =
      ⟨"", "skipped", 0, some "domain reddit.com in skip list"⟩ := by decide

/- ### Helper lemmas -/

theorem pyStrTake_ne_empty {n : Int} {s : String} (hn : 0 < n) (hs : s ≠ "") :
    pyStrTake n s ≠ "" := by
  unfold pyStrTake
  rw [if_pos (le_of_lt hn)]
  intro h
  have hdata : s.data.take n.toNat = [] := congrArg String.data h
  rcases List.take_eq_nil_iff.mp hdata with h1 | h2
  · omega
  · exact hs (congrArg String.mk h2)

theorem pyStrTake_hundred_le (s : String) : (pyStrTake 100 s).length ≤ 100 := by
  unfold pyStrTake
  rw [if_pos (by omega)]
  show (s.data.take (100 : Int).toNat).length ≤ 100
  simp

theorem length_ge_ne_empty {s : String} (h : 100 ≤ s.length) : s ≠ "" := by
  intro he
  rw [he] at h
  simp [String.length] at h

/- Branch characterizations of `fetch_full_text`, one per source branch. -/

theorem fetch_skipped {url : String} (max_chars : Int) (net : NetResult)
    (h : get_domain url ∈ SKIP_DOMAINS) :
    fetch_full_text url max_chars net =
      ⟨"", "skipped", 0, some ("domain " ++ get_domain url ++ " in skip list")⟩ := by
  unfold fetch_full_text
  rw [if_pos h]

theorem fetch_httpError {url : String} (max_chars : Int) (code : Nat)
    (h : get_domain url ∉ SKIP_DOMAINS) :
    fetch_full_text url max_chars (.httpError code) =
      ⟨"", "error", 0, some ("HTTP " ++ toString code)⟩ := by
  unfold fetch_full_text
  rw [if_neg h]

theorem fetch_urlError {url : String} (max_chars : Int) (reason : String)
    (h : get_domain url ∉ SKIP_DOMAINS) :
    fetch_full_text url max_chars (.urlError reason) =
      ⟨"", "error", 0, some ("URL error: " ++ reason)⟩ := by
  unfold fetch_full_text
  rw [if_neg h]

theorem fetch_otherError {url : String} (max_chars : Int) (msg : String)
    (h : get_domain url ∉ SKIP_DOMAINS) :
    fetch_full_text url max_chars (.otherError msg) =
      ⟨"", "error", 0, some (pyStrTake 100 msg)⟩ := by
  unfold fetch_full_text
  rw [if_neg h]

theorem fetch_bodyFailed {url : String} (max_chars : Int)
    (contentType tokenHeader msg : String) (h : get_domain url ∉ SKIP_DOMAINS) :
    fetch_full_text url max_chars (.bodyFailed contentType tokenHeader msg) =
      ⟨"", "error", 0, some (pyStrTake 100 msg)⟩ := by
  unfold fetch_full_text
  rw [if_neg h]

theorem fetch_markdown {url : String} (max_chars : Int)
    {contentType : String} (tokenHeader body : String)
    (h : get_domain url ∉ SKIP_DOMAINS) (hct : pyInStr "text/markdown" contentType = true) :
    fetch_full_text url max_chars (.response contentType tokenHeader body) =
      ⟨pyStrTake max_chars body, "cf-markdown",
        if pyIsdigit tokenHeader then pyToNat tokenHeader else body.length / 4, none⟩ := by
  unfold fetch_full_text
  rw [if_neg h]
  show (if pyInStr "text/markdown" contentType = true then _ else _) = _
  rw [if_pos hct]

theorem fetch_tooShort {url : String} (max_chars : Int)
    {contentType : String} (tokenHeader : String) {body : String}
    (h : get_domain url ∉ SKIP_DOMAINS)
    (hct : ¬ pyInStr "text/markdown" contentType = true)
    (hlen : (extract_readable_text body).length < 100) :
    fetch_full_text url max_chars (.response contentType tokenHeader body) =
      ⟨"", "html-too-short", 0, some "extracted text too short"⟩ := by
  unfold fetch_full_text
  rw [if_neg h]
  show (if pyInStr "text/markdown" contentType = true then _
    else if (extract_readable_text body).length < 100 then _ else _) = _
  rw [if_neg hct, if_pos hlen]

theorem fetch_htmlExtract {url : String} (max_chars : Int)
    {contentType : String} (tokenHeader : String) {body : String}
    (h : get_domain url ∉ SKIP_DOMAINS)
    (hct : ¬ pyInStr "text/markdown" contentType = true)
    (hlen : ¬ (extract_readable_text body).length < 100) :
    fetch_full_text url max_chars (.response contentType tokenHeader body) =
      ⟨pyStrTake max_chars (extract_readable_text body), "html-extract",
        (pyStrTake max_chars (extract_readable_text body)).length / 4, none⟩ := by
  unfold fetch_full_text
  rw [if_neg h]
  show (if pyInStr "text/markdown" contentType = true then _
    else if (extract_readable_text body).length < 100 then _ else _) = _
  rw [if_neg hct, if_neg hlen]

/- ### Claims about the Content Fetcher and the Domain Classifier -/

/-- Claim C1 fails as stated: a markdown response with an empty decoded
body yields an outcome with empty `text` whose method is `cf-markdown`,
not one of `skipped`, `html-too-short`, `error`. -/
theorem c1_counterexample :
    ¬ (((fetch_full_text "http://example.com/a" 2000 (.response "text/markdown" "" "")).text = "") ↔
      (fetch_full_text "http://example.com/a" 2000
          (.response "text/markdown" "" "")).method ∈ emptyTextMethods) := by
  decide

/-- Claim C1 (amended): for every URL, character budget and network
outcome, if the budget is positive and the decoded body is non-empty
whenever the response declares the markdown content type, then the
outcome's `text` is empty exactly when its method is one of `skipped`,
`html-too-short`, `error`. -/
theorem c1_empty_text_iff_method (url : String) (max_chars : Int) (net : NetResult)
    (hchars : 0 < max_chars) (hmd : markdownBodyNonempty net) :
    (fetch_full_text url max_chars net).text = "" ↔
      (fetch_full_text url max_chars net).method ∈ emptyTextMethods := by
  by_cases hskip : get_domain url ∈ SKIP_DOMAINS
  · rw [fetch_skipped max_chars net hskip]
    simp [emptyTextMethods]
  · cases net with
    | httpError code => rw [fetch_httpError max_chars code hskip]; simp [emptyTextMethods]
    | urlError reason => rw [fetch_urlError max_chars reason hskip]; simp [emptyTextMethods]
    | otherError msg => rw [fetch_otherError max_chars msg hskip]; simp [emptyTextMethods]
    | bodyFailed contentType tokenHeader msg =>
      rw [fetch_bodyFailed max_chars contentType tokenHeader msg hskip]
      simp [emptyTextMethods]
    | response contentType tokenHeader body =>
      by_cases hct : pyInStr "text/markdown" contentType = true
      · rw [fetch_markdown max_chars tokenHeader body hskip hct]
        have hne := pyStrTake_ne_empty hchars (hmd hct)
        simp [hne, emptyTextMethods]
      · by_cases hlen : (extract_readable_text body).length < 100
        · rw [fetch_tooShort max_chars tokenHeader hskip hct hlen]
          simp [emptyTextMethods]
        · rw [fetch_htmlExtract max_chars tokenHeader hskip hct hlen]
          have hne := pyStrTake_ne_empty hchars
            (length_ge_ne_empty (s := extract_readable_text body) (by omega))
          simp [hne, emptyTextMethods]

/-- Witness for `c1_empty_text_iff_method` at a concrete input. -/
theorem c1_empty_text_iff_method_witness :
    (fetch_full_text "http://example.com/a" 2000
        (.response "text/markdown" "" "hello")).text = "" ↔
      (fetch_full_text "http://example.com/a" 2000
          (.response "text/markdown" "" "hello")).method ∈ emptyTextMethods :=
  c1_empty_text_iff_method "http://example.com/a" 2000
    (.response "text/markdown" "" "hello") (by decide) (fun _ => by decide)

/-- Claim C2 fails as stated: a transport failure whose reason is 100
characters long yields an error description of 111 characters — the
`URL error:` branch is not truncated. -/
theorem c2_counterexample :
    (fetch_full_text "http://example.com/a" 2000 (.urlError longReason)).method = "error" ∧
      ¬ ((fetch_full_text "http://example.com/a" 2000
          (.urlError longReason)).error.getD "").data.length ≤ 100 := by
  decide

/-- Claim C2 (amended): every transport or internal failure on a
non-deny-listed URL yields `method = error` with empty text; the
description is `HTTP <code>` for HTTP-status failures, the untruncated
`URL error: <reason>` for transport failures, and the `str(e)` message
truncated to at most 100 characters for all other failures. -/
theorem c2_failures_become_error (url : String) (max_chars : Int) (net : NetResult)
    (hskip : get_domain url ∉ SKIP_DOMAINS) (hfail : isFailure net) :
    (fetch_full_text url max_chars net).method = "error" ∧
    (fetch_full_text url max_chars net).text = "" ∧
    (match net with
     | .httpError code =>
        (fetch_full_text url max_chars net).error = some ("HTTP " ++ toString code)
     | .urlError reason =>
        (fetch_full_text url max_chars net).error = some ("URL error: " ++ reason)
     | .otherError msg =>
        (fetch_full_text url max_chars net).error = some (pyStrTake 100 msg) ∧
          ((fetch_full_text url max_chars net).error.getD "").data.length ≤ 100
     | .bodyFailed _ _ msg =>
        (fetch_full_text url max_chars net).error = some (pyStrTake 100 msg) ∧
          ((fetch_full_text url max_chars net).error.getD "").data.length ≤ 100
     | .response _ _ _ => True) := by
  cases net with
  | httpError code => rw [fetch_httpError max_chars code hskip]; exact ⟨rfl, rfl, rfl⟩
  | urlError reason => rw [fetch_urlError max_chars reason hskip]; exact ⟨rfl, rfl, rfl⟩
  | otherError msg =>
    rw [fetch_otherError max_chars msg hskip]
    exact ⟨rfl, rfl, rfl, pyStrTake_hundred_le msg⟩
  | bodyFailed contentType tokenHeader msg =>
    rw [fetch_bodyFailed max_chars contentType tokenHeader msg hskip]
    exact ⟨rfl, rfl, rfl, pyStrTake_hundred_le msg⟩
  | response contentType tokenHeader body => exact hfail.elim

/-- Witness for `c2_failures_become_error` at a concrete input. -/
theorem c2_failures_become_error_witness :
    (fetch_full_text "http://example.com/a" 2000 (.otherError "boom")).method = "error" ∧
    (fetch_full_text "http://example.com/a" 2000 (.otherError "boom")).text = "" :=
  ⟨(c2_failures_become_error "http://example.com/a" 2000 (.otherError "boom")
      (by decide) trivial).1,
   (c2_failures_become_error "http://example.com/a" 2000 (.otherError "boom")
      (by decide) trivial).2.1⟩

/-- Claim C4 is right about the intent and the code is wrong:
`lstrip("www.")` strips the character *set* `{w, .}`, not one `"www."`
prefix.  On `http://wsj.com/a` the code produces `sj.com` where the spec's
contract produces `wsj.com`; the deny-list entry `wsj.com` is therefore
unmatchable.  On `http://web.example.com/a` the code mangles a host with
no `www.` prefix at all. -/
theorem c4_lstrip_is_charset_strip :
    get_domain "http://wsj.com/a" = "sj.com" ∧
    get_domain_specced "http://wsj.com/a" = "wsj.com" ∧
    "wsj.com" ∈ SKIP_DOMAINS ∧
    get_domain "http://wsj.com/a" ∉ SKIP_DOMAINS ∧
    get_domain "http://web.example.com/a" = "eb.example.com" ∧
    get_domain_specced "http://web.example.com/a" = "web.example.com" := by
  decide

/-- Claim C5 fails as stated: a markdown response with the two-character
body `hi` yields non-empty text with `tokens = 2 / 4 = 0`, violating
"`tokens = 0` exactly when text is empty" outside the permitted
cf-markdown empty-text exception. -/
theorem c5_counterexample :
    (fetch_full_text "http://example.com/a" 2000
        (.response "text/markdown" "" "hi")).tokens = 0 ∧
    (fetch_full_text "http://example.com/a" 2000
        (.response "text/markdown" "" "hi")).text ≠ "" ∧
    ¬ ((((fetch_full_text "http://example.com/a" 2000
            (.response "text/markdown" "" "hi")).tokens = 0) ↔
        (fetch_full_text "http://example.com/a" 2000
            (.response "text/markdown" "" "hi")).text = "") ∨
       ((fetch_full_text "http://example.com/a" 2000
            (.response "text/markdown" "" "hi")).text = "" ∧
        (fetch_full_text "http://example.com/a" 2000
            (.response "text/markdown" "" "hi")).method = "cf-markdown")) := by
  decide

/-- Claim C5 (amended): an outcome with empty text has `tokens = 0` unless
its method is `cf-markdown` (where a server-declared count may be
reported); an outcome with non-empty text may nevertheless have
`tokens = 0` when the declared or estimated count rounds to zero. -/
theorem c5_empty_text_tokens_zero (url : String) (max_chars : Int) (net : NetResult)
    (h : (fetch_full_text url max_chars net).text = "") :
    (fetch_full_text url max_chars net).tokens = 0 ∨
      (fetch_full_text url max_chars net).method = "cf-markdown" := by
  by_cases hskip : get_domain url ∈ SKIP_DOMAINS
  · rw [fetch_skipped max_chars net hskip]
    exact Or.inl rfl
  · cases net with
    | httpError code => rw [fetch_httpError max_chars code hskip]; exact Or.inl rfl
    | urlError reason => rw [fetch_urlError max_chars reason hskip]; exact Or.inl rfl
    | otherError msg => rw [fetch_otherError max_chars msg hskip]; exact Or.inl rfl
    | bodyFailed contentType tokenHeader msg =>
      rw [fetch_bodyFailed max_chars contentType tokenHeader msg hskip]
      exact Or.inl rfl
    | response contentType tokenHeader body =>
      by_cases hct : pyInStr "text/markdown" contentType = true
      · rw [fetch_markdown max_chars tokenHeader body hskip hct]
        exact Or.inr rfl
      · by_cases hlen : (extract_readable_text body).length < 100
        · rw [fetch_tooShort max_chars tokenHeader hskip hct hlen]
          exact Or.inl rfl
        · rw [fetch_htmlExtract max_chars tokenHeader hskip hct hlen] at h ⊢
          left
          have h' : pyStrTake max_chars (extract_readable_text body) = "" := h
          show (pyStrTake max_chars (extract_readable_text body)).length / 4 = 0
          rw [h']
          rfl

/-- Witness for `c5_empty_text_tokens_zero` at a concrete input. -/
theorem c5_empty_text_tokens_zero_witness :
    (fetch_full_text "https://reddit.com/r/x" 2000 (.urlError "unused")).tokens = 0 ∨
      (fetch_full_text "https://reddit.com/r/x" 2000 (.urlError "unused")).method =
        "cf-markdown" :=
  c5_empty_text_tokens_zero "https://reddit.com/r/x" 2000 (.urlError "unused") (by decide)

/- ### Lemmas about the Batch Selector -/

theorem pyTake_sublist (n : Int) (l : List α) : List.Sublist (pyTake n l) l := by
  unfold pyTake
  by_cases h : 0 ≤ n
  · rw [if_pos h]
    exact List.take_sublist _ _
  · rw [if_neg h]
    exact List.take_sublist _ _

theorem dedupByLink_sublist : ∀ (l : List Article) (seen : List String),
    List.Sublist (dedupByLink l seen) l
  | [], _ => List.nil_sublist _
  | a :: rest, seen => by
    unfold dedupByLink
    by_cases h : linkOf a ∈ seen
    · rw [if_pos h]
      exact (dedupByLink_sublist rest seen).cons a
    · rw [if_neg h]
      exact (dedupByLink_sublist rest _).cons₂ a

theorem dedupByLink_filter_nil {u : String} : ∀ (l : List Article) (seen : List String),
    u ∈ seen → (dedupByLink l seen).filter (fun a => linkOf a == u) = []
  | [], _, _ => rfl
  | a :: rest, seen, hu => by
    unfold dedupByLink
    by_cases h : linkOf a ∈ seen
    · rw [if_pos h]
      exact dedupByLink_filter_nil rest seen hu
    · rw [if_neg h, List.filter_cons]
      have hne : (linkOf a == u) = false :=
        beq_eq_false_iff_ne.mpr (fun he => h (he ▸ hu))
      rw [hne]
      simp only [Bool.false_eq_true, if_false]
      exact dedupByLink_filter_nil rest _ (List.mem_cons_of_mem _ hu)

theorem dedupByLink_filter_le_one (u : String) : ∀ (l : List Article) (seen : List String),
    ((dedupByLink l seen).filter (fun a => linkOf a == u)).length ≤ 1
  | [], _ => by simp [dedupByLink]
  | a :: rest, seen => by
    unfold dedupByLink
    by_cases h : linkOf a ∈ seen
    · rw [if_pos h]
      exact dedupByLink_filter_le_one u rest seen
    · rw [if_neg h, List.filter_cons]
      by_cases hau : (linkOf a == u) = true
      · rw [if_pos hau]
        have hnil : (dedupByLink rest (linkOf a :: seen)).filter (fun a => linkOf a == u) = [] :=
          dedupByLink_filter_nil rest _ ((eq_of_beq hau) ▸ List.mem_cons_self _ _)
        simp [hnil]
      · rw [if_neg hau]
        exact dedupByLink_filter_le_one u rest _

theorem dedupByLink_first {a : Article} : ∀ {l : List Article} {seen : List String},
    a ∈ dedupByLink l seen →
      linkOf a ∉ seen ∧ l.find? (fun x => linkOf x == linkOf a) = some a := by
  intro l
  induction l with
  | nil => intro seen h; cases h
  | cons b rest ih =>
    intro seen h
    unfold dedupByLink at h
    by_cases hb : linkOf b ∈ seen
    · rw [if_pos hb] at h
      obtain ⟨hnot, hfind⟩ := ih h
      have hne : ¬ ((fun x => linkOf x == linkOf a) b = true) :=
        fun he => hnot ((eq_of_beq he) ▸ hb)
      exact ⟨hnot, by rw [List.find?_cons_of_neg rest hne]; exact hfind⟩
    · rw [if_neg hb] at h
      rcases List.mem_cons.mp h with rfl | h2
      · refine ⟨hb, ?_⟩
        have hpos : (fun x => linkOf x == linkOf a) a = true := beq_self_eq_true _
        rw [List.find?_cons_of_pos rest hpos]
      · obtain ⟨hnot, hfind⟩ := ih h2
        have hne : ¬ ((fun x => linkOf x == linkOf a) b = true) :=
          fun he => hnot ((eq_of_beq he) ▸ List.mem_cons_self _ _)
        exact ⟨fun hmem => hnot (List.mem_cons_of_mem _ hmem),
          by rw [List.find?_cons_of_neg rest hne]; exact hfind⟩

/-- Stability of the work-list sort, phrased on score classes: sorting does
not reorder (nor add or drop) the articles of any fixed quality score. -/
theorem insertionSort_scoreLE_filter (l : List Article) (k : Int) :
    (List.insertionSort scoreLE l).filter (fun a => scoreOf a == k) =
      l.filter (fun a => scoreOf a == k) := by
  have hpw : (l.filter (fun a => scoreOf a == k)).Pairwise scoreLE := by
    apply List.pairwise_of_forall_mem_list
    intro a ha b hb
    have ha2 := (List.mem_filter.mp ha).2
    have hb2 := (List.mem_filter.mp hb).2
    simp only [beq_iff_eq] at ha2 hb2
    unfold scoreLE
    omega
  have hsub : List.Sublist (l.filter (fun a => scoreOf a == k))
      (List.insertionSort scoreLE l) :=
    List.sublist_insertionSort hpw (List.filter_sublist l)
  have h2 := hsub.filter (fun a => scoreOf a == k)
  rw [List.filter_eq_self.mpr (fun a ha => (List.mem_filter.mp ha).2)] at h2
  have hperm := (List.perm_insertionSort scoreLE l).filter (fun a => scoreOf a == k)
  exact (h2.eq_of_length hperm.length_eq.symm).symm

/- ### Claims about the Batch Selector -/

/-- Claim C6 fails as stated: with `max_articles = -1` (the CLI accepts any
integer) the Python slice `unique[:max_articles]` keeps all but the last
entry, so the work list has length 1, which is not at most `-1`. -/
theorem c6_counterexample :
    (buildWorkList [exArtA, exArtB] 10 (-1)).length = 1 ∧
      ¬ ((buildWorkList [exArtA, exArtB] 10 (-1)).length : Int) ≤ -1 := by
  decide

/-- Claim C6 (amended): whenever `max_articles ≥ 0` the WorkList has length
at most `max_articles` (a negative value instead drops the last
`-max_articles` entries); the WorkList is always sorted by non-increasing
`quality_score`, and articles of any fixed score keep their original
relative order (the filter on each score class is a sublist of the same
filter over the original collection). -/
theorem c6_worklist_bounded_sorted_stable (articles : List Article)
    (min_score max_articles : Int) :
    (0 ≤ max_articles →
      ((buildWorkList articles min_score max_articles).length : Int) ≤ max_articles) ∧
    (buildWorkList articles min_score max_articles).Pairwise
      (fun a b => scoreOf b ≤ scoreOf a) ∧
    ∀ k : Int,
      List.Sublist
        ((buildWorkList articles min_score max_articles).filter (fun a => scoreOf a == k))
        (articles.filter (fun a => scoreOf a == k)) := by
  refine ⟨?_, ?_, ?_⟩
  · intro h
    unfold buildWorkList pyTake
    rw [if_pos h]
    have hlen := List.length_take_le max_articles.toNat
      (List.insertionSort scoreLE (dedupByLink (eligibleList articles min_score) []))
    omega
  · have hs : (List.insertionSort scoreLE
        (dedupByLink (eligibleList articles min_score) [])).Pairwise scoreLE :=
      List.sorted_insertionSort scoreLE _
    exact hs.sublist (pyTake_sublist _ _)
  · intro k
    have h1 := (pyTake_sublist max_articles
      (List.insertionSort scoreLE (dedupByLink (eligibleList articles min_score) []))).filter
        (fun a => scoreOf a == k)
    rw [insertionSort_scoreLE_filter] at h1
    have h2 := (dedupByLink_sublist (eligibleList articles min_score) []).filter
      (fun a => scoreOf a == k)
    have h3 := (List.filter_sublist (p := isEligible min_score) articles).filter
      (fun a => scoreOf a == k)
    exact (h1.trans h2).trans h3

/-- Witness for `c6_worklist_bounded_sorted_stable` at a concrete input. -/
theorem c6_worklist_bounded_sorted_stable_witness :
    ((buildWorkList [exArtA, exArtB] 10 2).length : Int) ≤ 2 ∧
    (buildWorkList [exArtA, exArtB] 10 2).Pairwise (fun a b => scoreOf b ≤ scoreOf a) ∧
    List.Sublist ((buildWorkList [exArtA, exArtB] 10 2).filter (fun a => scoreOf a == 11))
      ([exArtA, exArtB].filter (fun a => scoreOf a == 11)) :=
  ⟨(c6_worklist_bounded_sorted_stable [exArtA, exArtB] 10 2).1 (by decide),
   (c6_worklist_bounded_sorted_stable [exArtA, exArtB] 10 2).2.1,
   (c6_worklist_bounded_sorted_stable [exArtA, exArtB] 10 2).2.2 11⟩

/-- Bridging lemma for C8: Python truthiness of an optional string is
`false` exactly when the key is absent or its value is empty. -/
theorem truthy_eq_false_iff (o : Option String) :
    truthy o = false ↔ (o = none ∨ o = some "") := by
  cases o with
  | none => simp [truthy]
  | some s =>
    obtain ⟨data⟩ := s
    cases data with
    | nil => simp [truthy]
    | cons c cs => simp [truthy, String.ext_iff]

/-- Bridging lemma for C8: the link is truthy exactly when `a.get("link","")`
is non-empty. -/
theorem truthy_link_iff (a : Article) : truthy a.link = true ↔ linkOf a ≠ "" := by
  cases h : a.link with
  | none => simp [truthy, linkOf, h]
  | some s =>
    obtain ⟨data⟩ := s
    cases data with
    | nil => simp [truthy, linkOf, h]
    | cons c cs => simp [truthy, linkOf, h, String.ext_iff]

/-- Claim C8 fails as stated: an article whose `full_text` key is present
with the empty string is still selected, because the code tests Python
truthiness of `full_text`, not its presence. -/
theorem c8_counterexample :
    isEligible 10 exArtEmptyFT = true ∧
    ¬ (isEligible 10 exArtEmptyFT = true ↔
        (linkOf exArtEmptyFT ≠ "" ∧ exArtEmptyFT.full_text = none ∧
          (10 ≤ scoreOf exArtEmptyFT ∨
            (get_domain (linkOf exArtEmptyFT) ∈ blog_domains ∧
              3 ≤ scoreOf exArtEmptyFT)))) := by
  decide

/-- Claim C8 (amended): an article is selected as eligible iff it has a
non-empty link, its `full_text` is absent *or empty*, and either its score
reaches `min_score` or its domain is in the blog allow-list and its score
is at least 3. -/
theorem c8_eligible_iff (articles : List Article) (min_score : Int) (a : Article) :
    a ∈ eligibleList articles min_score ↔
      a ∈ articles ∧ linkOf a ≠ "" ∧
        (a.full_text = none ∨ a.full_text = some "") ∧
        (min_score ≤ scoreOf a ∨
          (get_domain (linkOf a) ∈ blog_domains ∧ 3 ≤ scoreOf a)) := by
  unfold eligibleList
  rw [List.mem_filter]
  refine and_congr_right (fun _ => ?_)
  unfold isEligible
  simp only [Bool.and_eq_true, Bool.or_eq_true, Bool.not_eq_true', decide_eq_true_eq]
  constructor
  · rintro ⟨⟨hft, hl⟩, hsc⟩
    exact ⟨(truthy_link_iff a).mp hl, (truthy_eq_false_iff _).mp hft, hsc⟩
  · rintro ⟨hl, hft, hsc⟩
    exact ⟨⟨(truthy_eq_false_iff _).mpr hft, (truthy_link_iff a).mpr hl⟩, hsc⟩

/-- Claim C9 fails as stated: two eligible articles share a link, but with
`max_articles = 0` the WorkList contains none of them, not exactly one. -/
theorem c9_counterexample :
    isEligible 10 exArtA = true ∧ isEligible 10 exArtA2 = true ∧
    exArtA ≠ exArtA2 ∧ linkOf exArtA = linkOf exArtA2 ∧
    buildWorkList [exArtA, exArtA2] 10 0 = [] := by
  decide

/-- Claim C9 (amended): the WorkList contains at most one article per link,
and any member is the first eligible article with its link in original
collection order (truncation may drop a link entirely). -/
theorem c9_dedup_keeps_first (articles : List Article) (min_score max_articles : Int) :
    (∀ u : String,
      ((buildWorkList articles min_score max_articles).filter
        (fun a => linkOf a == u)).length ≤ 1) ∧
    ∀ a ∈ buildWorkList articles min_score max_articles,
      (eligibleList articles min_score).find? (fun x => linkOf x == linkOf a) = some a := by
  constructor
  · intro u
    have h1 := ((pyTake_sublist max_articles
      (List.insertionSort scoreLE (dedupByLink (eligibleList articles min_score) []))).filter
        (fun a => linkOf a == u)).length_le
    have hperm := ((List.perm_insertionSort scoreLE
      (dedupByLink (eligibleList articles min_score) [])).filter
        (fun a => linkOf a == u)).length_eq
    have h2 := dedupByLink_filter_le_one u (eligibleList articles min_score) []
    unfold buildWorkList
    omega
  · intro a ha
    have h1 : a ∈ List.insertionSort scoreLE (dedupByLink (eligibleList articles min_score) []) :=
      (pyTake_sublist max_articles _).subset ha
    have h2 : a ∈ dedupByLink (eligibleList articles min_score) [] :=
      (List.mem_insertionSort scoreLE).mp h1
    exact (dedupByLink_first h2).2

/-- Witness for `c9_dedup_keeps_first` at a concrete input. -/
theorem c9_dedup_keeps_first_witness :
    ((buildWorkList [exArtA, exArtA2] 10 15).filter
      (fun a => linkOf a == "http://example.com/a")).length ≤ 1 ∧
    (eligibleList [exArtA, exArtA2] 10).find?
      (fun x => linkOf x == linkOf exArtA) = some exArtA :=
  ⟨(c9_dedup_keeps_first [exArtA, exArtA2] 10 15).1 "http://example.com/a",
   (c9_dedup_keeps_first [exArtA, exArtA2] 10 15).2 exArtA (by decide)⟩

/- ### Lemmas about the Enrichment Orchestrator -/

theorem lookup_eq_none_of_keys_ne {β : Type} (u : String) :
    ∀ (rs : List (String × β)), (∀ p ∈ rs, p.1 ≠ u) → rs.lookup u = none
  | [], _ => rfl
  | (k, v) :: rest, h => by
    rw [List.lookup_cons]
    have hne : (u == k) = false :=
      beq_eq_false_iff_ne.mpr (fun he => h (k, v) (List.mem_cons_self _ _) he.symm)
    rw [hne]
    exact lookup_eq_none_of_keys_ne u rest (fun p hp => h p (List.mem_cons_of_mem _ hp))

theorem applyOutcomes_id_of (rs : List (String × FetchOutcome)) (a : Article)
    (h : ∀ o, rs.lookup (linkOf a) = some o → o.text = "") :
    applyOutcomes rs a = a := by
  cases hl : rs.lookup (linkOf a) with
  | none => simp [applyOutcomes, hl]
  | some r =>
    have ht := h r hl
    simp [applyOutcomes, hl, ht, truthy]

theorem applyOutcomes_preserves (rs : List (String × FetchOutcome)) (a : Article) :
    (applyOutcomes rs a).link = a.link ∧
    (applyOutcomes rs a).quality_score = a.quality_score ∧
    (applyOutcomes rs a).rest = a.rest := by
  cases hl : rs.lookup (linkOf a) with
  | none => simp [applyOutcomes, hl]
  | some r =>
    by_cases h : truthy (some r.text) = true
    · simp [applyOutcomes, hl, h]
    · simp [applyOutcomes, hl, h]

/- ### Claims about the Enrichment Orchestrator -/

/-- Claim C3 fails as stated: outcomes are applied by *link*, so an article
that shares its link with a WorkList entry is enriched even though it is
not itself in the WorkList (here the lower-scored duplicate at index 1). -/
theorem c3_counterexample :
    exArtA2 ∉ buildWorkList [exArtA, exArtA2] 10 15 ∧
      (enrich_articles [exArtA, exArtA2] 10 15 2000 mdNet).1[1]? ≠ some exArtA2 := by
  decide

/-- Claim C3 (amended): an article whose link differs from the link of
every WorkList entry, or whose link's outcome has empty text, is left
completely unchanged by `enrich_articles`. -/
theorem c3_unfetched_or_empty_unchanged (articles : List Article)
    (min_score max_articles max_chars : Int) (net : String → NetResult)
    (a : Article) (i : Nat) (ha : articles[i]? = some a)
    (h : (∀ b ∈ buildWorkList articles min_score max_articles, linkOf b ≠ linkOf a) ∨
         (∀ o, (fetchResults (buildWorkList articles min_score max_articles) max_chars
            net).lookup (linkOf a) = some o → o.text = "")) :
    (enrich_articles articles min_score max_articles max_chars net).1[i]? = some a := by
  simp only [enrich_articles]
  split
  · exact ha
  · rw [List.getElem?_map, ha]
    show some (applyOutcomes _ a) = some a
    refine congrArg some (applyOutcomes_id_of _ a ?_)
    rcases h with h | h
    · intro o ho
      have hnone : (fetchResults (buildWorkList articles min_score max_articles) max_chars
          net).lookup (linkOf a) = none := by
        apply lookup_eq_none_of_keys_ne
        intro p hp
        obtain ⟨b, hb, rfl⟩ := List.mem_map.mp hp
        exact h b hb
      rw [hnone] at ho
      cases ho
    · exact h

/-- Witness for `c3_unfetched_or_empty_unchanged` at a concrete input. -/
theorem c3_unfetched_or_empty_unchanged_witness :
    (enrich_articles [exArtLow] 10 15 2000 mdNet).1[0]? = some exArtLow :=
  c3_unfetched_or_empty_unchanged [exArtLow] 10 15 2000 mdNet exArtLow 0 (by decide)
    (Or.inl (fun b hb => by
      rw [show buildWorkList [exArtLow] 10 15 = [] from by decide] at hb
      exact absurd hb (List.not_mem_nil b)))

/-- Claim C7: the counters satisfy `success ≤ attempted` and
`cf_markdown ≤ success`; an empty WorkList returns `(0, 0, 0)` with the
collection untouched and no fetch dispatched (the outcome list of an empty
WorkList is empty). -/
theorem c7_counter_invariants (articles : List Article)
    (min_score max_articles max_chars : Int) (net : String → NetResult) :
    ((enrich_articles articles min_score max_articles max_chars net).2.2.1 ≤
      (enrich_articles articles min_score max_articles max_chars net).2.1) ∧
    ((enrich_articles articles min_score max_articles max_chars net).2.2.2 ≤
      (enrich_articles articles min_score max_articles max_chars net).2.2.1) ∧
    (buildWorkList articles min_score max_articles = [] →
      enrich_articles articles min_score max_articles max_chars net = (articles, 0, 0, 0) ∧
      fetchResults (buildWorkList articles min_score max_articles) max_chars net = []) := by
  simp only [enrich_articles]
  split
  · refine ⟨Nat.le_refl 0, Nat.le_refl 0, fun h2 => ⟨rfl, ?_⟩⟩
    rw [h2]
    rfl
  · rename_i hne
    refine ⟨?_, ?_, fun h2 => absurd (by rw [h2]; rfl) hne⟩
    · exact List.length_filter_le _ _
    · rw [← List.countP_eq_length_filter, ← List.countP_eq_length_filter]
      apply List.countP_mono_left
      intro x _ hx
      exact ((Bool.and_eq_true _ _).mp hx).1

/-- Witness for `c7_counter_invariants` at a concrete input. -/
theorem c7_counter_invariants_witness :
    enrich_articles [exArtLow] 10 15 2000 mdNet = ([exArtLow], 0, 0, 0) :=
  ((c7_counter_invariants [exArtLow] 10 15 2000 mdNet).2.2 (by decide)).1

/-- Claim C10: enrichment never adds, removes or reorders articles; every
article position holds either the original record unchanged, or the
original record with exactly the keys `full_text`, `full_text_method` and
`full_text_tokens` rewritten from one fetch outcome — so the link, the
quality score and all remaining keys always keep their values. -/
theorem c10_only_fulltext_keys_written (articles : List Article)
    (min_score max_articles max_chars : Int) (net : String → NetResult) :
    ((enrich_articles articles min_score max_articles max_chars net).1.length =
      articles.length) ∧
    ∀ (i : Nat) (a : Article), articles[i]? = some a →
      (enrich_articles articles min_score max_articles max_chars net).1[i]? = some a ∨
      ∃ r : FetchOutcome,
        (enrich_articles articles min_score max_articles max_chars net).1[i]? =
          some { a with
                 full_text := some r.text
                 full_text_method := some r.method
                 full_text_tokens := some r.tokens } := by
  simp only [enrich_articles]
  split
  · exact ⟨rfl, fun i a ha => Or.inl ha⟩
  · refine ⟨List.length_map _ _, fun i a ha => ?_⟩
    rw [List.getElem?_map, ha]
    simp only [Option.map_some', Option.some.injEq]
    cases hl : (fetchResults (buildWorkList articles min_score max_articles) max_chars
        net).lookup (linkOf a) with
    | none =>
      left
      simp [applyOutcomes, hl]
    | some r =>
      by_cases ht : truthy (some r.text) = true
      · right
        refine ⟨r, ?_⟩
        simp [applyOutcomes, hl, ht]
      · left
        simp [applyOutcomes, hl, ht]

/-- Witness for `c10_only_fulltext_keys_written` at a concrete input. -/
theorem c10_only_fulltext_keys_written_witness :
    (enrich_articles [exArtA] 10 15 2000 mdNet).1[0]? = some exArtA ∨
    ∃ r : FetchOutcome,
      (enrich_articles [exArtA] 10 15 2000 mdNet).1[0]? =
        some { exArtA with
               full_text := some r.text
               full_text_method := some r.method
               full_text_tokens := some r.tokens } :=
  (c10_only_fulltext_keys_written [exArtA] 10 15 2000 mdNet).2 0 exArtA (by decide)

end Enrich
